import Mathlib

/-!
Shallow embedding of `remove_peers_by_port.py`.

The script reconciles a full node's peer table: it lists connections
(`get_peer_connections`), resolves replacement candidates from DNS
introducers (`dig_new_peers`), and for each connection on the remove
port removes it (`remove_connection`) and optionally replaces it
(`add_peer`), accumulating counters (`run_main`).

External commands are modelled as oracles `String → CmdResult` giving the
result of each invocation; the trace of mutating node commands actually
issued is accumulated as a `List Call`.  Machine strings are Lean
`String`s; character classes (whitespace, lowercasing) are modelled over
ASCII, which covers every character the script's regexes and markers use.
-/

/-- Result of one external command invocation: the process exit status and
its captured standard output and standard error, as `subprocess.run`
returns them. -/
structure CmdResult where
  exitcode : Int
  stdout : String
  stderr : String
deriving DecidableEq, Repr

/-- A mutating node command issued by the script: removal of a peer by its
node id, or addition of a peer given as an `ip:port` string. -/
inductive Call where
  | remove (node_id : String)
  | add (peer : String)
deriving DecidableEq, Repr

/-- ASCII whitespace, the characters Python's `str.strip` and the regex
class `\s` recognise on ASCII input. -/
def pyIsSpace (c : Char) : Bool :=
  c = ' ' || c = '\t' || c = '\n' || c = '\x0b' || c = '\x0c' || c = '\r'

/-- ASCII decimal digit, the regex class `\d` on ASCII input. -/
def pyIsDigit (c : Char) : Bool :=
  '0' ≤ c && c ≤ '9'

/-- Lowercase hex digit or decimal digit, the regex class `[a-f0-9]`. -/
def isHexLowerDigit (c : Char) : Bool :=
  pyIsDigit c || ('a' ≤ c && c ≤ 'f')

/-- Hex digit of either case, Python `ipaddress`'s `_HEX_DIGITS`. -/
def isHexAscii (c : Char) : Bool :=
  pyIsDigit c || ('a' ≤ c && c ≤ 'f') || ('A' ≤ c && c ≤ 'F')

/-- ASCII lowercasing of one character, Python `str.lower` on ASCII. -/
def charLower (c : Char) : Char :=
  if 'A' ≤ c && c ≤ 'Z' then Char.ofNat (c.toNat + 32) else c

/-- Python `str.lower` restricted to ASCII input. -/
def pyLower (s : String) : String :=
  String.mk (s.data.map charLower)

/-- Decimal value of a digit string, Python `int(s)` on an all-digit `s`. -/
def digitsToNat (s : List Char) : Nat :=
  s.foldl (fun n c => n * 10 + (c.toNat - 48)) 0

/-- Split a character list at every occurrence of `sep`, Python
`str.split(sep)` for a one-character separator: the empty input yields one
empty field, adjacent separators yield empty fields. -/
def splitOnChar (sep : Char) : List Char → List (List Char)
  | [] => [[]]
  | c :: cs =>
    let r := splitOnChar sep cs
    if c = sep then [] :: r
    else
      match r with
      | h :: t => (c :: h) :: t
      | [] => [[c]]

/-- Python `str.split(sep)` on strings, for a one-character separator. -/
def pySplit (sep : Char) (s : String) : List String :=
  (splitOnChar sep s.data).map String.mk

/-- Python `str.strip()` on ASCII input: drop leading and trailing
whitespace. -/
def pyStrip (s : List Char) : List Char :=
  ((s.dropWhile pyIsSpace).reverse.dropWhile pyIsSpace).reverse

/-- Split at the first occurrence of `sep`, Python `str.partition(sep)` for
a one-character separator: the part before it and, when `sep` occurs, the
part after it. -/
def breakAtFirst (sep : Char) : List Char → (List Char × Option (List Char))
  | [] => ([], none)
  | c :: cs =>
    if c = sep then ([], some cs)
    else
      let r := breakAtFirst sep cs
      (c :: r.1, r.2)

/-- Boolean test that `p` is a prefix of `l`. -/
def startsWithChars : List Char → List Char → Bool
  | [], _ => true
  | _ :: _, [] => false
  | a :: asx, b :: bs => a = b && startsWithChars asx bs

/-- Boolean contiguous-substring test, Python's `needle in hay` on
strings. -/
def listContains (needle : List Char) : List Char → Bool
  | [] => needle.isEmpty
  | c :: t => startsWithChars needle (c :: t) || listContains needle t

/-- Python `needle in hay` on strings. -/
def pyIn (needle hay : String) : Bool :=
  listContains needle.data hay.data

/-- A parsed peer connection: the 8-hex-char node id, the peer's IP
address, and the local port of the connection, as the script's tuples
`(node_id, ip, int(port))`. -/
structure Connection where
  node_id : String
  ip : String
  port : Nat
deriving DecidableEq, Repr

/-- Expect the literal `p` as a prefix of the input and return the rest,
failing otherwise. -/
def expectLit : List Char → List Char → Option (List Char)
  | [], cs => some cs
  | p :: ps, c :: cs => if c = p then expectLit ps cs else none
  | _ :: _, [] => none

/-- Greedily take a maximal non-empty run of characters satisfying `p`
(the regex `X+` for a character class `X` disjoint from what follows),
failing when the run is empty. -/
def span1 (p : Char → Bool) (cs : List Char) : Option (List Char × List Char) :=
  match cs.takeWhile p with
  | [] => none
  | t => some (t, cs.drop t.length)

/-- Take exactly `n` characters satisfying `p` (the regex `X {n}`). -/
def takeCount : Nat → (Char → Bool) → List Char → Option (List Char × List Char)
  | 0, _, cs => some ([], cs)
  | n + 1, p, c :: cs =>
    if p c then (takeCount n p cs).map (fun r => (c :: r.1, r.2)) else none
  | _ + 1, _, [] => none

/-- Sub-pattern `\d+\.\d+\.\d+\.\d+` of the row pattern: the captured
dotted group and the rest of the input. -/
def parseIpGroup (cs : List Char) : Option (List Char × List Char) :=
  (span1 pyIsDigit cs).bind fun o1 =>
  (expectLit ['.'] o1.2).bind fun cs1 =>
  (span1 pyIsDigit cs1).bind fun o2 =>
  (expectLit ['.'] o2.2).bind fun cs2 =>
  (span1 pyIsDigit cs2).bind fun o3 =>
  (expectLit ['.'] o3.2).bind fun cs3 =>
  (span1 pyIsDigit cs3).bind fun o4 =>
  some (o1.1 ++ ['.'] ++ o2.1 ++ ['.'] ++ o3.1 ++ ['.'] ++ o4.1, o4.2)

/-- Sub-pattern `(\d+)/\d+` of the row pattern: the captured port digits
and the rest of the input. -/
def parsePortPair (cs : List Char) : Option (List Char × List Char) :=
  (span1 pyIsDigit cs).bind fun pd =>
  (expectLit ['/'] pd.2).bind fun cs1 =>
  (span1 pyIsDigit cs1).bind fun q =>
  some (pd.1, q.2)

/-- Tail of the row pattern after the role token: the whitespace-separated
IPv4 group, port pair and 8-hex-digit id (the trailing `.*` consumes the
rest unconditionally). -/
def matchRowTail (cs : List Char) : Option Connection :=
  (span1 pyIsSpace cs).bind fun w1 =>
  (parseIpGroup w1.2).bind fun ipg =>
  (span1 pyIsSpace ipg.2).bind fun w2 =>
  (parsePortPair w2.2).bind fun pp =>
  (span1 pyIsSpace pp.2).bind fun w3 =>
  (takeCount 8 isHexLowerDigit w3.2).bind fun hx =>
  some { node_id := String.mk hx.1,
         ip := String.mk ipg.1,
         port := digitsToNat pp.1 }

/-- The row pattern of `get_peer_connections`, regex
`FULL_NODE\s+(\d+\.\d+\.\d+\.\d+)\s+(\d+)/\d+\s+([a-f0-9]{8}).*` anchored
at the start of the (stripped) line; every adjacent pair of sub-patterns
uses disjoint character classes, so the greedy left-to-right parse here is
the regex's unique match.  On success the captured groups are assembled
into a `Connection` exactly as the script does:
`connections.append((node_id, ip, int(port)))`. -/
def matchRow (line : List Char) : Option Connection :=
  (expectLit "FULL_NODE".data line).bind matchRowTail

/-- Strip a line and match it against the row pattern, as the loop body of
`get_peer_connections` does with `re.match(..., line.strip())`. -/
def lineToConn (line : String) : Option Connection :=
  matchRow (pyStrip line.data)

/-- The loop body of `get_peer_connections`: append the parsed connection
when the line matches, keep the accumulator otherwise. -/
def collect_row (acc : List Connection) (line : String) : List Connection :=
  match lineToConn line with
  | some c => acc ++ [c]
  | none => acc

/-- Embedding of `get_peer_connections`: given the result of
`aba peer -c full_node`, split its stdout into lines, skip the first two
header lines, and collect every line matching the row pattern, in order.
A non-zero exit raises `CalledProcessError` under `check=True`, which the
function catches by returning the empty list. -/
def get_peer_connections (res : CmdResult) : List Connection :=
  if res.exitcode ≠ 0 then []
  else ((pySplit '\x0a' res.stdout).drop 2).foldl collect_row []

/-- Embedding of `check_existing_aba_peer`: whether `new_ip` is already
connected on `new_port` in the given connection list. -/
def check_existing_aba_peer (new_ip : String) (connections : List Connection) (new_port : Nat) : Bool :=
  connections.any (fun c => c.port == new_port && c.ip == new_ip)

/-- The fixed introducer hostnames of the script. -/
def INTRODUCERS : List String :=
  ["dns-introducer.abacoin.net", "dns-introducer.aba-project.io",
   "dns-introducer.aba.ooo", "dns-introducer.abacoin.io"]

/-- Add to a duplicate-free accumulator, modelling `set.add`: membership in
the final list is exactly membership in the Python set (the set's
enumeration order is not part of this model). -/
def setAdd (s : List String) (x : String) : List String :=
  if x ∈ s then s else s ++ [x]

/-- The per-line body of `dig_new_peers`'s inner loop: a non-empty line
that is not already connected on `port` is added to the candidate set. -/
def dig_add (existing : List Connection) (port : Nat) (a : List String) (line : String) : List String :=
  if line ≠ "" && !check_existing_aba_peer line existing port then setAdd a line else a

/-- The introducer loop of `dig_new_peers`: each hostname's `dig` result is
processed in order; a non-zero exit raises `CalledProcessError` under
`check=True`, aborting the remaining iterations (`none`). -/
def dig_loop (existing : List Connection) (port : Nat) (dig : String → CmdResult) :
    List String → List String → Option (List String)
  | [], acc => some acc
  | h :: t, acc =>
    let res := dig h
    if res.exitcode ≠ 0 then none
    else dig_loop existing port dig t ((pySplit '\x0a' res.stdout).foldl (dig_add existing port) acc)

/-- Embedding of `dig_new_peers`: run `dig <introducer> +short` for each
introducer, collecting every non-empty output line not already connected
on `port`; the single `try`/`except` around the whole loop turns any
failing introducer into an empty overall result. -/
def dig_new_peers (existing : List Connection) (port : Nat) (dig : String → CmdResult) : List String :=
  match dig_loop existing port dig INTRODUCERS [] with
  | some l => l
  | none => []

/-- Embedding of `remove_connection`: issue `aba peer -r <node_id>
full_node` (always recorded in the trace); success means the command
exited zero and its stdout, lowercased, contains `"disconnected"`. -/
def remove_connection (node : String → CmdResult) (node_id : String) : Bool × List Call :=
  let res := node node_id
  (if res.exitcode ≠ 0 then false
   else pyIn "disconnected" (pyLower res.stdout),
   [Call.remove node_id])

/-- One dotted octet of an IPv4 literal, Python
`ipaddress.IPv4Address._parse_octet`: non-empty, ASCII digits only, at
most three characters, no leading zero, value at most 255. -/
def parse_octet_ok (s : List Char) : Bool :=
  s ≠ [] && s.all pyIsDigit && s.length ≤ 3 &&
    (s = ['0'] || s.head? ≠ some '0') && digitsToNat s ≤ 255

/-- Python `ipaddress.IPv4Address(s)` accepting `s`: no `/`, exactly four
dot-separated octets, each octet valid. -/
def is_valid_ipv4_chars (s : List Char) : Bool :=
  if s.contains '/' then false
  else
    let octets := splitOnChar '.' s
    octets.length == 4 && octets.all parse_octet_ok

/-- One hextet of an IPv6 literal, Python
`ipaddress.IPv6Address._parse_hextet`: one to four hex digits. -/
def hextet_ok (s : List Char) : Bool :=
  s ≠ [] && s.length ≤ 4 && s.all isHexAscii

/-- Embedded-IPv4 rewriting step of Python
`ipaddress.IPv6Address._ip_int_from_string`: when the last
colon-separated part contains a dot it must be a valid IPv4 literal and is
replaced by two hextets (their exact digits never affect validity, so the
model uses `0`,`0`). -/
def ipv6_embed_v4 (parts : List (List Char)) : Option (List (List Char)) :=
  match parts.getLast? with
  | some last =>
    if last.contains '.' then
      if is_valid_ipv4_chars last then some (parts.dropLast ++ [['0'], ['0']])
      else none
    else some parts
  | none => none

/-- Number of empty fields in a list of parts. -/
def countEmpty (l : List (List Char)) : Nat :=
  (l.filter (fun p => p.isEmpty)).length

/-- The `::`-skip analysis of Python
`ipaddress.IPv6Address._ip_int_from_string` on the colon-separated parts
(at least three of them): at most one empty interior part (the `::`); an
empty first or last part only adjacent to that skip; the explicit hextet
count at most seven when a skip is present, exactly eight otherwise; and
every non-skipped part a valid hextet. -/
def ipv6_parts_ok (parts : List (List Char)) : Bool :=
  match parts with
  | [] => false
  | first :: rest =>
    match rest.getLast? with
    | none => false
    | some last =>
      let middle := rest.dropLast
      let n := parts.length
      match middle.findIdx? (fun p => p.isEmpty) with
      | some j =>
        countEmpty middle == 1 &&
        (!first.isEmpty || j == 0) &&
        (!last.isEmpty || j + 1 == n - 2) &&
        ((if first.isEmpty then 0 else j + 1) +
         (if last.isEmpty then 0 else n - j - 2) ≤ 7) &&
        parts.all (fun p => p.isEmpty || hextet_ok p)
      | none =>
        n == 8 && !first.isEmpty && !last.isEmpty && parts.all hextet_ok

/-- Python `ipaddress.IPv6Address(s)` accepting `s`: no `/`, a well-formed
optional `%scope` suffix, then the colon-separated address with at least
three parts, embedded-IPv4 rewriting, at most nine parts, and the
`::`-skip analysis. -/
def is_valid_ipv6_chars (s : List Char) : Bool :=
  if s.contains '/' then false
  else
    match (match breakAtFirst '%' s with
           | (addr, none) => some addr
           | (addr, some scope) =>
             if scope.isEmpty || scope.contains '%' then none else some addr) with
    | none => false
    | some addr =>
      if addr.isEmpty then false
      else
        let parts0 := splitOnChar ':' addr
        if parts0.length < 3 then false
        else
          match ipv6_embed_v4 parts0 with
          | none => false
          | some parts =>
            if parts.length > 9 then false
            else ipv6_parts_ok parts

/-- Embedding of `is_valid_ip`: Python `ipaddress.ip_address(ip)` succeeds
iff the string is a valid IPv4 or IPv6 literal. -/
def is_valid_ip (s : String) : Bool :=
  is_valid_ipv4_chars s.data || is_valid_ipv6_chars s.data

/-- Embedding of `add_peer`: an address failing `is_valid_ip` is rejected
without issuing any command; otherwise `aba peer -a <ip:port> full_node`
is issued (recorded in the trace) and success means the command exited
zero and its stdout, lowercased, does not contain `"failed"`. -/
def add_peer (node : String → CmdResult) (ip : String) (port : Nat) : Bool × List Call :=
  if !is_valid_ip ip then (false, [])
  else
    let peer := ip ++ ":" ++ toString port
    let res := node peer
    if res.exitcode ≠ 0 then (false, [Call.add peer])
    else if !pyIn "failed" (pyLower res.stdout) then (true, [Call.add peer])
    else (false, [Call.add peer])

/-- The command-line policy of one run: `--dry-run`, `--replace`,
`--remove-port`, `--replace-port`. -/
structure Policy where
  dry_run : Bool
  replace : Bool
  remove_port : Nat
  replace_port : Nat
deriving DecidableEq, Repr

/-- The mutable state of `main`'s reconciliation loop: the remaining
candidate list `new_peers`, the three counters, and the trace of mutating
node commands issued so far. -/
structure LoopState where
  new_peers : List String
  found_count : Nat
  removed_count : Nat
  replaced_count : Nat
  calls : List Call
deriving DecidableEq, Repr

/-- The replacement retry of `main`: pop the first candidate and try to
add it, then keep popping and retrying while candidates remain and the add
keeps failing (`while new_peers and not success`).  Returns the final
success flag, the remaining candidates, and the trace of add commands
issued. -/
def retry_add (addO : String → CmdResult) (rport : Nat) : List String → Bool × List String × List Call
  | [] => (false, [], [])
  | p :: rest =>
    let r := add_peer addO p rport
    if r.1 then (true, rest, r.2)
    else
      match rest with
      | [] => (false, [], r.2)
      | _ :: _ =>
        let r2 := retry_add addO rport rest
        (r2.1, r2.2.1, r.2 ++ r2.2.2)

/-- One iteration of `main`'s loop over the connection snapshot: a
connection on the remove port is counted; in dry-run mode the front
candidate is popped for display when replacement is enabled and candidates
remain; otherwise the removal command is issued and, on success, the
replacement retry runs when enabled and candidates remain. -/
def process_conn (pol : Policy) (removeO addO : String → CmdResult) (st : LoopState) (c : Connection) : LoopState :=
  if c.port == pol.remove_port then
    let st1 : LoopState := { st with found_count := st.found_count + 1 }
    if pol.dry_run then
      if pol.replace && !st1.new_peers.isEmpty then
        { st1 with new_peers := st1.new_peers.tail }
      else st1
    else
      let rc := remove_connection removeO c.node_id
      let st2 : LoopState := { st1 with calls := st1.calls ++ rc.2 }
      if rc.1 then
        let st3 : LoopState := { st2 with removed_count := st2.removed_count + 1 }
        if pol.replace && !st3.new_peers.isEmpty then
          let r := retry_add addO pol.replace_port st3.new_peers
          let st4 : LoopState := { st3 with new_peers := r.2.1, calls := st3.calls ++ r.2.2 }
          if r.1 then { st4 with replaced_count := st4.replaced_count + 1 } else st4
        else st3
      else st2
  else st

/-- The loop of `main` over the connection snapshot. -/
def run_loop (pol : Policy) (removeO addO : String → CmdResult) : List Connection → LoopState → LoopState
  | [], st => st
  | c :: cs, st => run_loop pol removeO addO cs (process_conn pol removeO addO st c)

/-- Embedding of `main`'s reconciliation pass (lines 141-184): starting
from the given snapshot and candidate pool with zeroed counters and an
empty trace, process every connection in order. -/
def run_main (pol : Policy) (removeO addO : String → CmdResult) (connections : List Connection) (new_peers : List String) : LoopState :=
  run_loop pol removeO addO connections
    { new_peers := new_peers, found_count := 0, removed_count := 0, replaced_count := 0, calls := [] }

/-- Number of snapshot connections on the remove port. -/
def countMatched (pol : Policy) (l : List Connection) : Nat :=
  (l.filter (fun c => c.port == pol.remove_port)).length

/-- An external-command oracle whose every invocation exits zero with empty
output. -/
def nullCmd : String → CmdResult :=
  fun _ => { exitcode := 0, stdout := "", stderr := "" }

/-! ### Substring and prefix characterizations -/

/-- Boolean prefix test agrees with the existence of a suffix. -/
theorem startsWithChars_eq_true_iff (n : List Char) :
    ∀ h : List Char, startsWithChars n h = true ↔ ∃ t, h = n ++ t := by
  induction n with
  | nil =>
    intro h
    simp [startsWithChars]
  | cons a asx ih =>
    intro h
    cases h with
    | nil => simp [startsWithChars]
    | cons b bs =>
      simp only [startsWithChars, Bool.and_eq_true, decide_eq_true_eq, ih, List.cons_append,
        List.cons.injEq]
      constructor
      · rintro ⟨rfl, t, rfl⟩
        exact ⟨t, rfl, rfl⟩
      · rintro ⟨t, rfl, rfl⟩
        exact ⟨rfl, t, rfl⟩

/-- Boolean substring test agrees with Python's `in`: a contiguous
occurrence exists. -/
theorem listContains_eq_true_iff (n : List Char) :
    ∀ h : List Char, listContains n h = true ↔ ∃ l r, h = l ++ n ++ r := by
  intro h
  induction h with
  | nil =>
    simp only [listContains, List.isEmpty_iff]
    constructor
    · rintro rfl
      exact ⟨[], [], rfl⟩
    · rintro ⟨l, r, he⟩
      rcases List.append_eq_nil.mp he.symm with ⟨h1, h2⟩
      exact (List.append_eq_nil.mp h1).2
  | cons c t ih =>
    simp only [listContains, Bool.or_eq_true, startsWithChars_eq_true_iff n, ih]
    constructor
    · rintro (⟨r, hr⟩ | ⟨l, r, rfl⟩)
      · exact ⟨[], r, by simpa using hr⟩
      · exact ⟨c :: l, r, rfl⟩
    · rintro ⟨l, r, he⟩
      cases l with
      | nil => exact Or.inl ⟨r, by simpa using he⟩
      | cons x xs =>
        right
        injection he with h1 h2
        exact ⟨xs, r, h2⟩

/-! ### Candidate-pool membership lemmas -/

/-- Membership after a `setAdd`. -/
theorem mem_setAdd (s : List String) (x y : String) :
    y ∈ setAdd s x ↔ y ∈ s ∨ y = x := by
  unfold setAdd
  split
  · rename_i hx
    constructor
    · exact Or.inl
    · rintro (hy | rfl)
      · exact hy
      · exact hx
  · simp

/-- Membership after one `dig_new_peers` line step. -/
theorem mem_dig_add (e : List Connection) (p : Nat) (a : List String) (line y : String) :
    y ∈ dig_add e p a line ↔
      y ∈ a ∨ (y = line ∧ line ≠ "" ∧ check_existing_aba_peer line e p = false) := by
  unfold dig_add
  split
  · rename_i hc
    simp only [Bool.and_eq_true, decide_eq_true_eq, Bool.not_eq_true'] at hc
    rw [mem_setAdd]
    constructor
    · rintro (hy | rfl)
      · exact Or.inl hy
      · exact Or.inr ⟨rfl, hc.1, hc.2⟩
    · rintro (hy | ⟨rfl, _, _⟩)
      · exact Or.inl hy
      · exact Or.inr rfl
  · rename_i hc
    simp only [Bool.and_eq_true, decide_eq_true_eq, Bool.not_eq_true', not_and] at hc
    constructor
    · exact Or.inl
    · rintro (hy | ⟨rfl, hne, hch⟩)
      · exact hy
      · exact absurd hch (hc hne)

/-- Folding `dig_add` only produces lines that passed the guard. -/
theorem mem_foldl_dig_add (e : List Connection) (p : Nat) :
    ∀ (lines : List String) (acc : List String) (y : String),
      y ∈ lines.foldl (dig_add e p) acc →
      y ∈ acc ∨ (y ∈ lines ∧ y ≠ "" ∧ check_existing_aba_peer y e p = false) := by
  intro lines
  induction lines with
  | nil => intro acc y h; exact Or.inl h
  | cons l ls ih =>
    intro acc y h
    rw [List.foldl_cons] at h
    rcases ih (dig_add e p acc l) y h with h' | ⟨hmem, hne, hch⟩
    · rcases (mem_dig_add e p acc l y).mp h' with h'' | ⟨rfl, hne, hch⟩
      · exact Or.inl h''
      · exact Or.inr ⟨List.mem_cons_self _ _, hne, hch⟩
    · exact Or.inr ⟨List.mem_cons_of_mem l hmem, hne, hch⟩

/-- Folding `dig_add` never drops accumulated members. -/
theorem mem_foldl_dig_add_of_mem_acc (e : List Connection) (p : Nat) :
    ∀ (lines : List String) (acc : List String) (y : String),
      y ∈ acc → y ∈ lines.foldl (dig_add e p) acc := by
  intro lines
  induction lines with
  | nil => intro acc y h; exact h
  | cons l ls ih =>
    intro acc y h
    rw [List.foldl_cons]
    exact ih _ y ((mem_dig_add e p acc l y).mpr (Or.inl h))

/-- A non-empty, not-already-connected resolver line enters the fold. -/
theorem mem_foldl_dig_add_self (e : List Connection) (p : Nat) :
    ∀ (lines : List String) (acc : List String) (y : String),
      y ∈ lines → y ≠ "" → check_existing_aba_peer y e p = false →
      y ∈ lines.foldl (dig_add e p) acc := by
  intro lines
  induction lines with
  | nil => intro acc y h; cases h
  | cons l ls ih =>
    intro acc y hmem hne hch
    rw [List.foldl_cons]
    rcases List.mem_cons.mp hmem with rfl | hmem'
    · exact mem_foldl_dig_add_of_mem_acc e p ls _ y
        ((mem_dig_add e p acc y y).mpr (Or.inr ⟨rfl, hne, hch⟩))
    · exact ih _ y hmem' hne hch

/-- Every member of a successfully finished introducer loop either was in
the accumulator or passed the non-empty / not-already-connected guard. -/
theorem dig_loop_inv (e : List Connection) (p : Nat) (dig : String → CmdResult) :
    ∀ (l : List String) (acc out : List String),
      (∀ y ∈ acc, y ≠ "" ∧ check_existing_aba_peer y e p = false) →
      dig_loop e p dig l acc = some out →
      ∀ y ∈ out, y ≠ "" ∧ check_existing_aba_peer y e p = false := by
  intro l
  induction l with
  | nil =>
    intro acc out hacc heq
    rw [dig_loop] at heq
    cases heq
    exact hacc
  | cons hd t ih =>
    intro acc out hacc heq
    rw [dig_loop] at heq
    split at heq
    · cases heq
    · refine ih _ _ ?_ heq
      intro y hy
      rcases mem_foldl_dig_add e p _ _ y hy with hy' | ⟨_, hne, hch⟩
      · exact hacc y hy'
      · exact ⟨hne, hch⟩

/-- A failing introducer anywhere in the remaining list makes the whole
loop raise, i.e. return `none`. -/
theorem dig_loop_none (e : List Connection) (p : Nat) (dig : String → CmdResult) :
    ∀ (l : List String) (acc : List String),
      (∃ h ∈ l, (dig h).exitcode ≠ 0) → dig_loop e p dig l acc = none := by
  intro l
  induction l with
  | nil =>
    rintro acc ⟨h, hmem, _⟩
    cases hmem
  | cons hd t ih =>
    rintro acc ⟨h, hmem, hex⟩
    rw [dig_loop]
    split
    · rfl
    · rename_i hcond
      apply ih
      rcases List.mem_cons.mp hmem with rfl | hmem'
      · exact absurd hex hcond
      · exact ⟨h, hmem', hex⟩

/-- When every remaining introducer succeeds, the loop finishes, keeps all
accumulated members, and contains every guarded line of every
introducer's output. -/
theorem dig_loop_ok (e : List Connection) (p : Nat) (dig : String → CmdResult) :
    ∀ (l : List String) (acc : List String),
      (∀ h ∈ l, (dig h).exitcode = 0) →
      ∃ out, dig_loop e p dig l acc = some out ∧
        (∀ y ∈ acc, y ∈ out) ∧
        (∀ h ∈ l, ∀ y ∈ pySplit '\x0a' (dig h).stdout,
          y ≠ "" → check_existing_aba_peer y e p = false → y ∈ out) := by
  intro l
  induction l with
  | nil =>
    intro acc _
    refine ⟨acc, rfl, fun y hy => hy, ?_⟩
    intro h hmem
    cases hmem
  | cons hd t ih =>
    intro acc hall
    have hhd : (dig hd).exitcode = 0 := hall hd (List.mem_cons_self hd t)
    obtain ⟨out, heq, hacc, hlines⟩ :=
      ih ((pySplit '\x0a' (dig hd).stdout).foldl (dig_add e p) acc)
        (fun h hm => hall h (List.mem_cons_of_mem hd hm))
    refine ⟨out, ?_, ?_, ?_⟩
    · rw [dig_loop]
      rw [if_neg (by simp [hhd])]
      exact heq
    · intro y hy
      exact hacc y (mem_foldl_dig_add_of_mem_acc e p _ acc y hy)
    · intro h hm y hy hne hch
      rcases List.mem_cons.mp hm with rfl | hm'
      · exact hacc y (mem_foldl_dig_add_self e p _ acc y hy hne hch)
      · exact hlines h hm' y hy hne hch

/-! ### Claims about the introducer query -/

/-- C4: for every snapshot of connections and every set of introducer
responses, no address in the candidate pool returned by `dig_new_peers` is
the address of an existing connection whose port equals the replace
port. -/
theorem dig_pool_excludes_replace_port (existing : List Connection) (port : Nat)
    (dig : String → CmdResult) (c : Connection) (hc : c ∈ existing) (hp : c.port = port) :
    c.ip ∉ dig_new_peers existing port dig := by
  intro hmem
  unfold dig_new_peers at hmem
  cases heq : dig_loop existing port dig INTRODUCERS [] with
  | none =>
    rw [heq] at hmem
    exact absurd hmem (List.not_mem_nil _)
  | some out =>
    rw [heq] at hmem
    have hinv := dig_loop_inv existing port dig INTRODUCERS [] out
      (by intro y hy; cases hy) heq
    have hch := (hinv c.ip hmem).2
    have hch' : check_existing_aba_peer c.ip existing port = true := by
      unfold check_existing_aba_peer
      rw [List.any_eq_true]
      exact ⟨c, hc, by simp [hp]⟩
    rw [hch'] at hch
    cases hch

/-- Introducer oracle for C4's witness: both addresses resolve, one of
them already connected on the replace port in the witness snapshot. -/
def digW4 : String → CmdResult :=
  fun _ => { exitcode := 0, stdout := "5.6.7.8\x0a1.2.3.4", stderr := "" }

/-- Witness for C4 at a concrete snapshot and oracle. -/
theorem dig_pool_excludes_replace_port_witness :
    (⟨"aabbccdd", "5.6.7.8", 8644⟩ : Connection) ∈ [(⟨"aabbccdd", "5.6.7.8", 8644⟩ : Connection)] ∧
    (⟨"aabbccdd", "5.6.7.8", 8644⟩ : Connection).port = 8644 ∧
    "5.6.7.8" ∉ dig_new_peers [⟨"aabbccdd", "5.6.7.8", 8644⟩] 8644 digW4 :=
  ⟨by decide, rfl,
   dig_pool_excludes_replace_port [⟨"aabbccdd", "5.6.7.8", 8644⟩] 8644 digW4
     ⟨"aabbccdd", "5.6.7.8", 8644⟩ (by decide) rfl⟩

/-- Introducer oracle for C1: the first introducer resolves one address
successfully, the second fails (non-zero exit), the rest resolve to
nothing. -/
def dig1 : String → CmdResult :=
  fun h =>
    if h = "dns-introducer.abacoin.net" then { exitcode := 0, stdout := "1.2.3.4", stderr := "" }
    else if h = "dns-introducer.aba-project.io" then { exitcode := 1, stdout := "", stderr := "" }
    else { exitcode := 0, stdout := "", stderr := "" }

/-- Counterexample to C1: one introducer fails while another resolves
`1.2.3.4` successfully (and nothing excludes it), yet the returned pool
does not contain `1.2.3.4` — the whole query was aborted. -/
theorem dig_error_isolation_counterexample :
    (dig1 "dns-introducer.abacoin.net").exitcode = 0 ∧
    "1.2.3.4" ∈ pySplit '\x0a' (dig1 "dns-introducer.abacoin.net").stdout ∧
    check_existing_aba_peer "1.2.3.4" [] 8644 = false ∧
    "1.2.3.4" ∉ dig_new_peers [] 8644 dig1 := by
  refine ⟨rfl, by decide, rfl, by decide⟩

/-- C1 amended: errors are caught around the whole introducer loop, not
per introducer.  If any introducer's resolution fails the query returns
the empty pool, discarding addresses already resolved; only when every
introducer succeeds does each introducer's (non-empty, not already
connected) output populate the pool. -/
theorem dig_error_aborts_whole_query (existing : List Connection) (port : Nat)
    (dig : String → CmdResult) :
    ((∃ h ∈ INTRODUCERS, (dig h).exitcode ≠ 0) → dig_new_peers existing port dig = [])
    ∧ ((∀ h ∈ INTRODUCERS, (dig h).exitcode = 0) →
        ∀ h ∈ INTRODUCERS, ∀ y ∈ pySplit '\x0a' (dig h).stdout,
          y ≠ "" → check_existing_aba_peer y existing port = false →
          y ∈ dig_new_peers existing port dig) := by
  constructor
  · intro hex
    unfold dig_new_peers
    rw [dig_loop_none existing port dig INTRODUCERS [] hex]
  · intro hall h hh y hy hne hch
    obtain ⟨out, heq, _, hmem⟩ := dig_loop_ok existing port dig INTRODUCERS [] hall
    unfold dig_new_peers
    rw [heq]
    exact hmem h hh y hy hne hch

/-- Witness for the amended C1: with `dig1`, one introducer fails, so the
pool comes back empty. -/
theorem dig_error_aborts_whole_query_witness :
    (∃ h ∈ INTRODUCERS, (dig1 h).exitcode ≠ 0) ∧ dig_new_peers [] 8644 dig1 = [] :=
  ⟨⟨"dns-introducer.aba-project.io", by decide, by decide⟩,
   (dig_error_aborts_whole_query [] 8644 dig1).1
     ⟨"dns-introducer.aba-project.io", by decide, by decide⟩⟩

/-- C10: the introducer query applies no IP-syntax validation — any
non-empty resolver line not already connected on the replace port enters
the pool, valid IP literal or not; such a string is only rejected when
`add_peer` consumes it, failing without issuing a command, whereupon the
retry loop discards it and moves to the next candidate. -/
theorem dig_pool_no_ip_validation :
    (∀ (existing : List Connection) (port : Nat) (dig : String → CmdResult) (h y : String),
        h ∈ INTRODUCERS → (∀ h2 ∈ INTRODUCERS, (dig h2).exitcode = 0) →
        y ∈ pySplit '\x0a' (dig h).stdout → y ≠ "" →
        check_existing_aba_peer y existing port = false →
        y ∈ dig_new_peers existing port dig)
    ∧ (∀ (node : String → CmdResult) (ip : String) (rport : Nat),
        is_valid_ip ip = false → add_peer node ip rport = (false, []))
    ∧ (∀ (addO : String → CmdResult) (rport : Nat) (bad : String) (rest : List String),
        is_valid_ip bad = false → rest ≠ [] →
        retry_add addO rport (bad :: rest) = retry_add addO rport rest) := by
  refine ⟨?_, ?_, ?_⟩
  · intro existing port dig h y hh hall hy hne hch
    obtain ⟨out, heq, _, hmem⟩ := dig_loop_ok existing port dig INTRODUCERS [] hall
    unfold dig_new_peers
    rw [heq]
    exact hmem h hh y hy hne hch
  · intro node ip rport hv
    unfold add_peer
    simp [hv]
  · intro addO rport bad rest hv hrest
    cases rest with
    | nil => exact absurd rfl hrest
    | cons a t =>
      have hap : add_peer addO bad rport = (false, []) := by
        unfold add_peer
        simp [hv]
      rw [retry_add, hap]
      simp

/-- Introducer oracle for C10's witness: every introducer resolves the
same two lines, one of which is not an IP literal. -/
def digW : String → CmdResult :=
  fun _ => { exitcode := 0, stdout := "hello\x0a1.2.3.4", stderr := "" }

/-- Witness for C10: the non-IP string `hello` enters the pool, and
`add_peer` rejects it without issuing a command while the retry loop skips
past it. -/
theorem dig_pool_no_ip_validation_witness :
    "dns-introducer.abacoin.net" ∈ INTRODUCERS ∧
    (∀ h2 ∈ INTRODUCERS, (digW h2).exitcode = 0) ∧
    is_valid_ip "hello" = false ∧
    "hello" ∈ dig_new_peers [] 8644 digW ∧
    add_peer nullCmd "hello" 8644 = (false, []) ∧
    retry_add nullCmd 8644 ["hello", "1.2.3.4"] = retry_add nullCmd 8644 ["1.2.3.4"] :=
  ⟨by decide, by decide, by decide,
   dig_pool_no_ip_validation.1 [] 8644 digW "dns-introducer.abacoin.net" "hello"
     (by decide) (by decide) (by decide) (by decide) rfl,
   dig_pool_no_ip_validation.2.1 nullCmd "hello" 8644 (by decide),
   dig_pool_no_ip_validation.2.2 nullCmd 8644 "hello" ["1.2.3.4"] (by decide) (by decide)⟩

/-! ### Orchestrator loop lemmas -/

/-- One loop step adds one to `found_count` exactly on a port match. -/
theorem process_conn_found (pol : Policy) (ro ao : String → CmdResult)
    (st : LoopState) (c : Connection) :
    (process_conn pol ro ao st c).found_count
      = st.found_count + (if c.port == pol.remove_port then 1 else 0) := by
  by_cases h : (c.port == pol.remove_port) = true
  · simp only [process_conn, h, if_true]
    split
    · split <;> rfl
    · split
      · split
        · split <;> rfl
        · rfl
      · rfl
  · rw [process_conn, if_neg h, if_neg h]
    omega

/-- One loop step adds at most one to `removed_count`, and only on a port
match. -/
theorem process_conn_removed_le (pol : Policy) (ro ao : String → CmdResult)
    (st : LoopState) (c : Connection) :
    (process_conn pol ro ao st c).removed_count
      ≤ st.removed_count + (if c.port == pol.remove_port then 1 else 0) := by
  by_cases h : (c.port == pol.remove_port) = true
  · simp only [process_conn, h, if_true]
    split
    · split <;> simp
    · split
      · split
        · split <;> simp
        · simp
      · simp
  · rw [process_conn, if_neg h, if_neg h]
    omega

/-- One loop step preserves `replaced_count ≤ removed_count`. -/
theorem process_conn_replaced_le (pol : Policy) (ro ao : String → CmdResult)
    (st : LoopState) (c : Connection) (hst : st.replaced_count ≤ st.removed_count) :
    (process_conn pol ro ao st c).replaced_count
      ≤ (process_conn pol ro ao st c).removed_count := by
  by_cases h : (c.port == pol.remove_port) = true
  · simp only [process_conn, h, if_true]
    split
    · split <;> simpa using hst
    · split
      · split
        · split <;> simp <;> omega
        · simp
          omega
      · simpa using hst
  · rw [process_conn, if_neg h]
    exact hst

/-- In dry-run mode one loop step issues no external command. -/
theorem process_conn_calls_dry (pol : Policy) (ro ao : String → CmdResult)
    (st : LoopState) (c : Connection) (hdry : pol.dry_run = true) :
    (process_conn pol ro ao st c).calls = st.calls := by
  by_cases h : (c.port == pol.remove_port) = true
  · simp only [process_conn, h, if_true, hdry]
    split <;> rfl
  · rw [process_conn, if_neg h]

/-- In dry-run mode one loop step pops one candidate exactly when the
connection matches and replacement is enabled. -/
theorem process_conn_peers_dry (pol : Policy) (ro ao : String → CmdResult)
    (st : LoopState) (c : Connection) (hdry : pol.dry_run = true) :
    (process_conn pol ro ao st c).new_peers
      = st.new_peers.drop (if (c.port == pol.remove_port) && pol.replace then 1 else 0) := by
  by_cases h : (c.port == pol.remove_port) = true
  · simp only [process_conn, h, if_true, hdry, Bool.true_and]
    by_cases hr : pol.replace = true
    · simp only [hr, if_true, Bool.true_and]
      by_cases he : st.new_peers.isEmpty = true
      · rw [if_neg (by simp [he])]
        have : st.new_peers = [] := List.isEmpty_iff.mp he
        simp [this]
      · rw [if_pos (by simp [he])]
        simp [List.drop_one]
    · have hr' : pol.replace = false := by
        cases hpr : pol.replace
        · rfl
        · exact absurd hpr hr
      simp [hr']
  · have h' : (c.port == pol.remove_port) = false := by
      cases hpc : (c.port == pol.remove_port)
      · rfl
      · exact absurd hpc h
    rw [process_conn, if_neg h]
    simp [h']

/-- Over the whole loop, `found_count` grows by exactly the number of
port matches. -/
theorem run_loop_found (pol : Policy) (ro ao : String → CmdResult) :
    ∀ (cs : List Connection) (st : LoopState),
      (run_loop pol ro ao cs st).found_count = st.found_count + countMatched pol cs := by
  intro cs
  induction cs with
  | nil => intro st; simp [run_loop, countMatched]
  | cons c cs ih =>
    intro st
    rw [run_loop, ih, process_conn_found]
    by_cases h : (c.port == pol.remove_port) = true
    · simp [countMatched, List.filter_cons, h]
      omega
    · have h' : (c.port == pol.remove_port) = false := by
        cases hpc : (c.port == pol.remove_port)
        · rfl
        · exact absurd hpc h
      simp [countMatched, List.filter_cons, h']

/-- Over the whole loop, `removed_count` grows by at most the number of
port matches. -/
theorem run_loop_removed_le (pol : Policy) (ro ao : String → CmdResult) :
    ∀ (cs : List Connection) (st : LoopState),
      (run_loop pol ro ao cs st).removed_count ≤ st.removed_count + countMatched pol cs := by
  intro cs
  induction cs with
  | nil => intro st; simp [run_loop, countMatched]
  | cons c cs ih =>
    intro st
    rw [run_loop]
    have h1 := ih (process_conn pol ro ao st c)
    have h2 := process_conn_removed_le pol ro ao st c
    by_cases h : (c.port == pol.remove_port) = true
    · have h3 : countMatched pol (c :: cs) = countMatched pol cs + 1 := by
        simp [countMatched, List.filter_cons, h]
      simp [h] at h2
      omega
    · have h' : (c.port == pol.remove_port) = false := by
        cases hpc : (c.port == pol.remove_port)
        · rfl
        · exact absurd hpc h
      have h3 : countMatched pol (c :: cs) = countMatched pol cs := by
        simp [countMatched, List.filter_cons, h']
      simp [h'] at h2
      omega

/-- Over the whole loop, `replaced_count ≤ removed_count` is preserved. -/
theorem run_loop_replaced_le (pol : Policy) (ro ao : String → CmdResult) :
    ∀ (cs : List Connection) (st : LoopState),
      st.replaced_count ≤ st.removed_count →
      (run_loop pol ro ao cs st).replaced_count ≤ (run_loop pol ro ao cs st).removed_count := by
  intro cs
  induction cs with
  | nil => intro st h; exact h
  | cons c cs ih =>
    intro st h
    rw [run_loop]
    exact ih _ (process_conn_replaced_le pol ro ao st c h)

/-- In dry-run mode the whole loop issues no external command. -/
theorem run_loop_calls_dry (pol : Policy) (ro ao : String → CmdResult)
    (hdry : pol.dry_run = true) :
    ∀ (cs : List Connection) (st : LoopState),
      (run_loop pol ro ao cs st).calls = st.calls := by
  intro cs
  induction cs with
  | nil => intro st; rfl
  | cons c cs ih =>
    intro st
    rw [run_loop, ih, process_conn_calls_dry pol ro ao st c hdry]

/-- In dry-run mode the whole loop drops one candidate per match (when
replacement is enabled), nothing otherwise. -/
theorem run_loop_peers_dry (pol : Policy) (ro ao : String → CmdResult)
    (hdry : pol.dry_run = true) :
    ∀ (cs : List Connection) (st : LoopState),
      (run_loop pol ro ao cs st).new_peers
        = st.new_peers.drop (if pol.replace then countMatched pol cs else 0) := by
  intro cs
  induction cs with
  | nil =>
    intro st
    simp [run_loop, countMatched]
  | cons c cs ih =>
    intro st
    rw [run_loop, ih, process_conn_peers_dry pol ro ao st c hdry, List.drop_drop]
    congr 1
    by_cases hr : pol.replace = true
    · by_cases h : (c.port == pol.remove_port) = true
      · simp [hr, h, countMatched, List.filter_cons]
        omega
      · have h' : (c.port == pol.remove_port) = false := by
          cases hpc : (c.port == pol.remove_port)
          · rfl
          · exact absurd hpc h
        simp [hr, h', countMatched, List.filter_cons]
    · have hr' : pol.replace = false := by
        cases hpr : pol.replace
        · rfl
        · exact absurd hpr hr
      simp [hr']

/-! ### Claims about the orchestrator -/

/-- C3: at the end of a non-dry-run pass, `found_count` equals the number
of snapshot connections on the remove port, `removed_count` is at most
`found_count`, and `replaced_count` is at most `removed_count`, whatever
the remove and add commands answered. -/
theorem counters_invariant (pol : Policy) (ro ao : String → CmdResult)
    (snap : List Connection) (pool : List String) (hdry : pol.dry_run = false) :
    (run_main pol ro ao snap pool).found_count = countMatched pol snap ∧
    (run_main pol ro ao snap pool).removed_count ≤ (run_main pol ro ao snap pool).found_count ∧
    (run_main pol ro ao snap pool).replaced_count ≤ (run_main pol ro ao snap pool).removed_count := by
  unfold run_main
  refine ⟨?_, ?_, ?_⟩
  · rw [run_loop_found]
    simp
  · rw [run_loop_found]
    have h1 := run_loop_removed_le pol ro ao snap
      { new_peers := pool, found_count := 0, removed_count := 0, replaced_count := 0, calls := [] }
    simp only at h1 ⊢
    omega
  · exact run_loop_replaced_le pol ro ao snap
      { new_peers := pool, found_count := 0, removed_count := 0, replaced_count := 0, calls := [] }
      (Nat.le_refl 0)

/-- Witness for C3 on a concrete snapshot with a failing remove oracle. -/
theorem counters_invariant_witness :
    (⟨false, true, 8444, 8644⟩ : Policy).dry_run = false ∧
    ((run_main ⟨false, true, 8444, 8644⟩ nullCmd nullCmd
        [⟨"ab12cd34", "1.2.3.4", 8444⟩, ⟨"ffffffff", "2.2.2.2", 8443⟩] ["5.6.7.8"]).found_count
      = countMatched ⟨false, true, 8444, 8644⟩
          [⟨"ab12cd34", "1.2.3.4", 8444⟩, ⟨"ffffffff", "2.2.2.2", 8443⟩] ∧
    (run_main ⟨false, true, 8444, 8644⟩ nullCmd nullCmd
        [⟨"ab12cd34", "1.2.3.4", 8444⟩, ⟨"ffffffff", "2.2.2.2", 8443⟩] ["5.6.7.8"]).removed_count
      ≤ (run_main ⟨false, true, 8444, 8644⟩ nullCmd nullCmd
        [⟨"ab12cd34", "1.2.3.4", 8444⟩, ⟨"ffffffff", "2.2.2.2", 8443⟩] ["5.6.7.8"]).found_count ∧
    (run_main ⟨false, true, 8444, 8644⟩ nullCmd nullCmd
        [⟨"ab12cd34", "1.2.3.4", 8444⟩, ⟨"ffffffff", "2.2.2.2", 8443⟩] ["5.6.7.8"]).replaced_count
      ≤ (run_main ⟨false, true, 8444, 8644⟩ nullCmd nullCmd
        [⟨"ab12cd34", "1.2.3.4", 8444⟩, ⟨"ffffffff", "2.2.2.2", 8443⟩] ["5.6.7.8"]).removed_count) :=
  ⟨rfl, counters_invariant ⟨false, true, 8444, 8644⟩ nullCmd nullCmd
    [⟨"ab12cd34", "1.2.3.4", 8444⟩, ⟨"ffffffff", "2.2.2.2", 8443⟩] ["5.6.7.8"] rfl⟩

/-- Counterexample to C2: in dry-run with replacement enabled, one matched
connection and a one-element candidate pool, the pool after the pass
differs from the pool before it — the dry-run branch popped it. -/
theorem dry_run_pops_counterexample :
    (run_main ⟨true, true, 8444, 8644⟩ nullCmd nullCmd
        [⟨"ab12cd34", "1.2.3.4", 8444⟩] ["5.6.7.8"]).new_peers ≠ ["5.6.7.8"] := by
  decide

/-- C2 amended: in dry-run mode the orchestrator pops (not merely peeks)
the front candidate for display, once per matched connection while
candidates remain and replacement is enabled: the pool after the pass is
the original pool with its first `min(matchedCount, length)` elements
dropped; with replacement disabled the pool is unchanged. -/
theorem dry_run_pops_per_match (pol : Policy) (ro ao : String → CmdResult)
    (snap : List Connection) (pool : List String) (hdry : pol.dry_run = true) :
    (run_main pol ro ao snap pool).new_peers
      = pool.drop (if pol.replace then countMatched pol snap else 0) := by
  unfold run_main
  rw [run_loop_peers_dry pol ro ao hdry]

/-- Witness for the amended C2. -/
theorem dry_run_pops_per_match_witness :
    (⟨true, true, 8444, 8644⟩ : Policy).dry_run = true ∧
    (run_main ⟨true, true, 8444, 8644⟩ nullCmd nullCmd
        [⟨"ab12cd34", "1.2.3.4", 8444⟩] ["5.6.7.8"]).new_peers
      = ["5.6.7.8"].drop
          (if (⟨true, true, 8444, 8644⟩ : Policy).replace
           then countMatched ⟨true, true, 8444, 8644⟩ [⟨"ab12cd34", "1.2.3.4", 8444⟩] else 0) :=
  ⟨rfl, dry_run_pops_per_match ⟨true, true, 8444, 8644⟩ nullCmd nullCmd
    [⟨"ab12cd34", "1.2.3.4", 8444⟩] ["5.6.7.8"] rfl⟩

/-- C8: in dry-run mode the orchestrator issues no peer-remove and no
peer-add command at all. -/
theorem dry_run_no_external_calls (pol : Policy) (ro ao : String → CmdResult)
    (snap : List Connection) (pool : List String) (hdry : pol.dry_run = true) :
    (run_main pol ro ao snap pool).calls = [] := by
  unfold run_main
  rw [run_loop_calls_dry pol ro ao hdry]

/-- Witness for C8. -/
theorem dry_run_no_external_calls_witness :
    (⟨true, true, 8444, 8644⟩ : Policy).dry_run = true ∧
    (run_main ⟨true, true, 8444, 8644⟩ nullCmd nullCmd
        [⟨"ab12cd34", "1.2.3.4", 8444⟩] ["5.6.7.8"]).calls = [] :=
  ⟨rfl, dry_run_no_external_calls ⟨true, true, 8444, 8644⟩ nullCmd nullCmd
    [⟨"ab12cd34", "1.2.3.4", 8444⟩] ["5.6.7.8"] rfl⟩

/-! ### Claims about the connection lister and command adapters -/

/-- Folding `collect_row` appends exactly the parses of the matching
lines, in order. -/
theorem foldl_collect_row_eq :
    ∀ (l : List String) (acc : List Connection),
      l.foldl collect_row acc = acc ++ l.filterMap lineToConn := by
  intro l
  induction l with
  | nil => intro acc; simp
  | cons x xs ih =>
    intro acc
    rw [List.foldl_cons, List.filterMap_cons]
    cases hfx : lineToConn x with
    | none =>
      rw [collect_row, hfx, ih]
    | some c =>
      rw [collect_row, hfx, ih]
      simp

/-- C5: a line yields a `Connection` in the lister's output iff the list
command exited zero, the line is past the two header lines, and the
(stripped) line matches the row pattern; non-matching lines never
contribute. -/
theorem peer_list_row_schema (res : CmdResult) (c : Connection) :
    c ∈ get_peer_connections res ↔
      res.exitcode = 0 ∧
        ∃ line ∈ (pySplit '\x0a' res.stdout).drop 2, lineToConn line = some c := by
  unfold get_peer_connections
  split
  · rename_i hne
    simp only [List.not_mem_nil, false_iff, not_and]
    intro h0
    exact absurd h0 hne
  · rename_i hne
    have h0 : res.exitcode = 0 := not_not.mp hne
    rw [foldl_collect_row_eq]
    simp only [List.nil_append, List.mem_filterMap]
    constructor
    · rintro ⟨line, hl, he⟩
      exact ⟨h0, line, hl, he⟩
    · rintro ⟨_, line, hl, he⟩
      exact ⟨line, hl, he⟩

/-- C6: the remover reports success iff the remove command exited zero and
its stdout contains `disconnected` case-insensitively (modelled as the
ASCII-lowercased stdout containing the lowercase marker). -/
theorem remove_success_iff_marker (node : String → CmdResult) (nid : String) :
    (remove_connection node nid).1 = true ↔
      (node nid).exitcode = 0 ∧
        ∃ l r, (node nid).stdout.data.map charLower = l ++ "disconnected".data ++ r := by
  unfold remove_connection
  dsimp only
  split
  · rename_i hne
    constructor
    · intro hf
      exact absurd hf (by simp)
    · rintro ⟨h0, _⟩
      exact absurd h0 hne
  · rename_i hne
    have h0 : (node nid).exitcode = 0 := not_not.mp hne
    constructor
    · intro hc
      exact ⟨h0, (listContains_eq_true_iff _ _).mp hc⟩
    · rintro ⟨_, hdec⟩
      exact (listContains_eq_true_iff _ _).mpr hdec

/-- C7: the adder reports success iff the address is a valid IP literal,
the add command exited zero, and its stdout does not contain `failed`
case-insensitively; an invalid address yields failure with no command
issued at all. -/
theorem add_peer_contract (node : String → CmdResult) (ip : String) (port : Nat) :
    ((add_peer node ip port).1 = true ↔
      (is_valid_ip ip = true ∧ (node (ip ++ ":" ++ toString port)).exitcode = 0 ∧
        ¬ ∃ l r, (node (ip ++ ":" ++ toString port)).stdout.data.map charLower
            = l ++ "failed".data ++ r))
    ∧ (is_valid_ip ip = false → add_peer node ip port = (false, [])) := by
  constructor
  · cases hv : is_valid_ip ip with
    | false =>
      unfold add_peer
      simp [hv]
    | true =>
      unfold add_peer
      rw [if_neg (by simp [hv])]
      dsimp only
      split
      · rename_i hne
        constructor
        · intro hf
          exact absurd hf (by simp)
        · rintro ⟨_, h0, _⟩
          exact absurd h0 hne
      · rename_i hne
        have h0 : (node (ip ++ ":" ++ toString port)).exitcode = 0 := not_not.mp hne
        split
        · rename_i hnm
          rw [Bool.not_eq_true'] at hnm
          have hnm' : listContains "failed".data
              (List.map charLower (node (ip ++ ":" ++ toString port)).stdout.data) = false := hnm
          constructor
          · intro _
            refine ⟨by trivial, h0, ?_⟩
            intro hdec
            have hc := (listContains_eq_true_iff _ _).mpr hdec
            rw [hc] at hnm'
            exact Bool.noConfusion hnm'
          · intro _
            rfl
        · rename_i hnm
          have hm : pyIn "failed" (pyLower (node (ip ++ ":" ++ toString port)).stdout) = true := by
            cases hq : pyIn "failed" (pyLower (node (ip ++ ":" ++ toString port)).stdout)
            · exact absurd (by rw [hq]; rfl) hnm
            · rfl
          constructor
          · intro hf
            exact absurd hf (by simp)
          · rintro ⟨_, _, hnot⟩
            exact absurd ((listContains_eq_true_iff _ _).mp hm) hnot
  · intro hv
    unfold add_peer
    simp [hv]

/-- Witness for C7: an out-of-range octet fails validation, and `add_peer`
rejects it without issuing any command. -/
theorem add_peer_contract_witness :
    is_valid_ip "300.1.2.3" = false ∧ add_peer nullCmd "300.1.2.3" 8644 = (false, []) :=
  ⟨by decide, (add_peer_contract nullCmd "300.1.2.3" 8644).2 (by decide)⟩
